import Mathlib

/-!
Verification of the knowledge-pipeline core of the ca-copilot repository:
the recursive character splitter (`apps/api/app/rag/chunking/splitter.py`),
the stub embedder (`apps/api/app/rag/embeddings/base.py`), the scoped
retriever (`apps/api/app/rag/retrieval.py`), the ingestion pipeline
(`apps/api/app/services/ingestion.py`) and the hierarchy prompt assembler
(`apps/api/app/services/prompt.py`), shallowly embedded over lists and
exact rationals.  Python strings are `List Char`, UUIDs are `Nat`,
nullable columns are `Option`, and the float vectors of pgvector are
`List ℚ` (ordering by L2 distance is modelled by squared L2 distance,
which induces the same order).
-/

namespace CACopilot

/-- Visibility scope of a document, from `models.py` (`class Scope`). -/
inductive Scope where
  | FIRM
  | KIT
  | CLIENT
deriving DecidableEq

/-- Document lifecycle status, from `models.py` (`class DocumentStatus`). -/
inductive DocumentStatus where
  | UPLOADED
  | PROCESSING
  | READY
  | FAILED
deriving DecidableEq

/-- The `documents` table row, from `models.py` (`class Document`); only the
columns the retrieval / ingestion code reads.  `firm_id`, `client_id` and
`kit_id` are nullable columns. -/
structure Document where
  id : Nat
  scope : Scope
  firm_id : Option Nat
  client_id : Option Nat
  kit_id : Option Nat
  status : DocumentStatus
deriving DecidableEq

/-- The `doc_embeddings` table row, from `models.py` (`class DocEmbedding`). -/
structure DocEmbedding where
  id : Nat
  document_id : Nat
  chunk_text : List Char
  chunk_index : Nat
  embedding : List ℚ
deriving DecidableEq

/-- The knowledge store: the two tables, each list in row insertion
(creation) order. -/
structure Store where
  documents : List Document
  embeddings : List DocEmbedding
deriving DecidableEq

/-! ## Chunker (`splitter.py`, `RecursiveCharacterTextSplitter.split_text`) -/

/-- Python `str.rfind`: index of the last occurrence of `c`, if any. -/
def rstrfind : List Char → Char → Option Nat
  | [], _ => none
  | x :: xs, c =>
    match rstrfind xs c with
    | some j => some (j + 1)
    | none => if x = c then some 0 else none

/-- One iteration of the `while start < text_len` loop body of
`split_text`, at cursor `start < text.length`: the emitted chunk and the
next cursor (`none` means the loop breaks).  In the branch where the
window contains a space at last offset `L`, the source performs two
sequential assignments, `start = start + last_space + 1 - overlap`
followed by `start = start + chunk_len - overlap` (the first is a leftover
the trailing comment block says was being replaced), then clamps a
negative cursor to `0`; their composition is
`max 0 (start + 2*L + 1 - 2*overlap)`, which over `Nat` is the truncated
subtraction below.  In the no-space branch the source does not clamp; the
truncated subtraction agrees with it whenever `overlap ≤ start +
chunk_size`, in particular whenever `overlap < chunk_size`. -/
def splitStep (cs ov : Nat) (text : List Char) (start : Nat) :
    List Char × Option Nat :=
  if text.length ≤ start + cs then
    (text.drop start, none)
  else
    let sub := (text.drop start).take cs
    match rstrfind sub ' ' with
    | none => (sub, some (start + cs - ov))
    | some L => (sub.take L, some (start + 2 * L + 1 - 2 * ov))

/-- The `while` loop of `split_text`, with explicit fuel (one unit per
iteration): `none` means the fuel ran out before the loop finished. -/
def splitLoop (cs ov : Nat) (text : List Char) : Nat → Nat → Option (List (List Char))
  | fuel, start =>
    if start < text.length then
      match fuel with
      | 0 => none
      | f + 1 =>
        match splitStep cs ov text start with
        | (chunk, none) => some [chunk]
        | (chunk, some s2) => (splitLoop cs ov text f s2).map fun r => chunk :: r
    else some []

/-- `RecursiveCharacterTextSplitter.split_text`, fueled: `some chunks`
when the loop finishes within `fuel` iterations. -/
def split_text (cs ov : Nat) (text : List Char) (fuel : Nat) :
    Option (List (List Char)) :=
  if text.isEmpty then some [] else splitLoop cs ov text fuel 0

/-! ## Embedder (`embeddings/base.py`, `StubEmbedder`) -/

/-- `StubEmbedder`: `embed_text` runs `np.random.seed(len(text))` and then
`np.random.rand(self.dimension)`.  The numpy generator is an external
library; it is abstracted as the field `prng`, a pure function of the seed
and the number of draws, which is exactly how the source uses it. -/
structure StubEmbedder where
  dimension : Nat
  prng : Nat → Nat → List ℚ

/-- `StubEmbedder.embed_text`: a deterministic vector seeded with the
length of the text. -/
def StubEmbedder.embed_text (e : StubEmbedder) (text : List Char) : List ℚ :=
  e.prng text.length e.dimension

/-- `StubEmbedder.embed_batch`: maps `embed_text` over the batch. -/
def StubEmbedder.embed_batch (e : StubEmbedder) (texts : List (List Char)) :
    List (List ℚ) :=
  texts.map e.embed_text

/-! ## Scoped retriever (`retrieval.py`, `Retriever.retrieve`) -/

/-- Squared L2 distance between two vectors.  pgvector's `l2_distance` is
its square root; `x ↦ √x` is monotone, so ordering rows by `dist2` orders
them by L2 distance. -/
def dist2 (u v : List ℚ) : ℚ :=
  (List.zipWith (fun a b => (a - b) * (a - b)) u v).sum

/-- The `conditions` list built by `Retriever.retrieve`: the CLIENT and
FIRM clauses always, the KIT clause appended only when `kit_ids` is
nonempty (`if kit_ids:`).  SQL `NULL = x` and `NULL IN (...)` are not
satisfied, hence the `some` patterns on the nullable columns. -/
def retrieveConditions (firm_id client_id : Nat) (kit_ids : List Nat) :
    List (Document → Bool) :=
  [fun d => decide (d.scope = Scope.CLIENT ∧ d.client_id = some client_id),
   fun d => decide (d.scope = Scope.FIRM ∧ d.firm_id = some firm_id)]
  ++ (if kit_ids.isEmpty then []
      else [fun d => decide (d.scope = Scope.KIT ∧ ∃ k ∈ kit_ids, d.kit_id = some k)])

/-- The `where_clause = or_(*conditions)` of `Retriever.retrieve`. -/
def whereClause (firm_id client_id : Nat) (kit_ids : List Nat) (d : Document) :
    Bool :=
  (retrieveConditions firm_id client_id kit_ids).any fun cond => cond d

/-- The `select(DocEmbedding).join(Document)` rows: each embedding row
paired with its owning document (`DocEmbedding.document_id = Document.id`),
in chunk insertion order. -/
def joinRows (s : Store) : List (DocEmbedding × Document) :=
  s.embeddings.filterMap fun e =>
    (s.documents.find? fun d => decide (d.id = e.document_id)).map fun d => (e, d)

/-- The joined rows surviving the visibility `where_clause`. -/
def eligibleRows (s : Store) (firm_id client_id : Nat) (kit_ids : List Nat) :
    List (DocEmbedding × Document) :=
  (joinRows s).filter fun r => whereClause firm_id client_id kit_ids r.2

/-- Comparison of two joined rows by distance of their chunk vector to the
query vector `qv`. -/
def distLE (qv : List ℚ) (a b : DocEmbedding × Document) : Prop :=
  dist2 qv a.1.embedding ≤ dist2 qv b.1.embedding

instance (qv : List ℚ) : DecidableRel (distLE qv) := fun _ _ =>
  inferInstanceAs (Decidable (_ ≤ _))

/-- Modelled from the spec: the external store's
`ORDER BY l2_distance LIMIT limit` is not code of this repository; per the
spec it returns the `limit` closest rows ascending by distance, ties
broken by insertion order, which a stable insertion sort of the rows (kept
in insertion order) realizes. -/
def orderByDistance (qv : List ℚ) (rows : List (DocEmbedding × Document)) :
    List (DocEmbedding × Document) :=
  List.insertionSort (distLE qv) rows

/-- `Retriever.retrieve`: embed the query, filter the joined rows by the
visibility clause, order by distance to the query vector, take `limit`.
A hit is a chunk row together with its (selectinload-ed) document. -/
def retrieve (embed : List Char → List ℚ) (s : Store) (query : List Char)
    (firm_id client_id : Nat) (kit_ids : List Nat) (limit : Nat) :
    List (DocEmbedding × Document) :=
  (orderByDistance (embed query) (eligibleRows s firm_id client_id kit_ids)).take limit

/-- The visibility predicate exactly as the spec words it (scope
completeness): CLIENT and the supplied client id, or FIRM and the supplied
firm id, or KIT and a kit id among the supplied ones. -/
def specEligible (firm_id client_id : Nat) (kit_ids : List Nat) (d : Document) :
    Prop :=
  (d.scope = Scope.CLIENT ∧ d.client_id = some client_id)
  ∨ (d.scope = Scope.FIRM ∧ d.firm_id = some firm_id)
  ∨ (d.scope = Scope.KIT ∧ ∃ k ∈ kit_ids, d.kit_id = some k)

/-! ## Ingestion pipeline (`ingestion.py`, `ingest_document`) -/

/-- Observable outcome of one `ingest_document` run: the sequence of
status values committed for the document, in order, and the
`DocEmbedding` rows persisted as `(chunk_index, chunk_text)` pairs. -/
structure IngestRun where
  statusWrites : List DocumentStatus
  rows : List (Nat × List Char)
deriving DecidableEq

/-- `ingest_document`, one run.  `doc` is the fetch by id (`none`: absent,
return silently); `fileOk` is whether the source file resolves to an
existing local path; `parsed` is the extractor's result (`none`: the
parser raised, caught by the top-level `except` which marks FAILED).  The
status is set to PROCESSING and committed before the file is touched.  An
empty extracted text (`if not text:`) marks FAILED and returns.  Otherwise
the text is chunked (`chunk_size=1000, chunk_overlap=200`), embedded in
one batch, one row per `enumerate(zip(chunks, vectors))` element is added,
and READY is committed.  The whole body is inside `try/except`, so the
function never raises to its caller; the model is accordingly total. -/
def ingest_document (doc : Option Document) (fileOk : Bool)
    (parsed : Option (List Char)) (fuel : Nat) : IngestRun :=
  match doc with
  | none => ⟨[], []⟩
  | some _ =>
    if fileOk then
      match parsed with
      | none => ⟨[DocumentStatus.PROCESSING, DocumentStatus.FAILED], []⟩
      | some text =>
        if text.isEmpty then ⟨[DocumentStatus.PROCESSING, DocumentStatus.FAILED], []⟩
        else
          match split_text 1000 200 text fuel with
          | none => ⟨[DocumentStatus.PROCESSING], []⟩
          | some chunks => ⟨[DocumentStatus.PROCESSING, DocumentStatus.READY], chunks.enum⟩
    else ⟨[DocumentStatus.PROCESSING, DocumentStatus.FAILED], []⟩

/-- The status history of one document: `upload_document`
(`documents.py`) creates it with `status=UPLOADED` and registers a single
`ingest_document` background task for its id, so the history is UPLOADED
followed by the status writes of that one run. -/
def document_status_trace (doc : Option Document) (fileOk : Bool)
    (parsed : Option (List Char)) (fuel : Nat) : List DocumentStatus :=
  DocumentStatus.UPLOADED :: (ingest_document doc fileOk parsed fuel).statusWrites

/-! ## Hierarchy prompt assembler (`prompt.py`, `format_context_for_prompt`) -/

/-- One step of the bucket-filling loop of `format_context_for_prompt`:
`grouped[d.document.scope.value].append(d.chunk_text)` on the three-bucket
accumulator (KIT, FIRM, CLIENT). -/
def groupStep (acc : List String × List String × List String) (d : Scope × String) :
    List String × List String × List String :=
  match d.1 with
  | Scope.KIT => (acc.1 ++ [d.2], acc.2.1, acc.2.2)
  | Scope.FIRM => (acc.1, acc.2.1 ++ [d.2], acc.2.2)
  | Scope.CLIENT => (acc.1, acc.2.1, acc.2.2 ++ [d.2])

/-- `PromptService.format_context_for_prompt`.  A hit contributes the pair
of its document's scope (`d.document.scope`) and its `chunk_text`; the
function reads nothing else.  One pass fills the three buckets of the
`grouped` dict, then the nonempty buckets are rendered under their headers
in the fixed order KIT, FIRM, CLIENT and joined with blank lines. -/
def format_context_for_prompt (docs : List (Scope × String)) : String :=
  let grouped := docs.foldl groupStep ([], [], [])
  let context_parts :=
    (if grouped.1.isEmpty then []
     else ["### SPECIALIST KNOWLEDGE (KITS):\n" ++ String.intercalate "\n" grouped.1])
    ++ (if grouped.2.1.isEmpty then []
        else ["### FIRM KNOWLEDGE:\n" ++ String.intercalate "\n" grouped.2.1])
    ++ (if grouped.2.2.isEmpty then []
        else ["### CLIENT CONTEXT:\n" ++ String.intercalate "\n" grouped.2.2])
  String.intercalate "\n\n" context_parts

/-- The texts of the hits whose document has scope `sc`, in hit order. -/
def bucketTexts (sc : Scope) (docs : List (Scope × String)) : List String :=
  (docs.filter fun d => decide (d.1 = sc)).map fun d => d.2

/-- A labeled section of the context block: omitted entirely when the
bucket is empty. -/
def renderSection (header : String) (texts : List String) : List String :=
  if texts.isEmpty then [] else [header ++ String.intercalate "\n" texts]

/-- The context block as the spec words it: the bucket texts under labeled
headers in the fixed priority order KIT, FIRM, CLIENT, empty buckets
contributing nothing. -/
def specFormatContext (docs : List (Scope × String)) : String :=
  String.intercalate "\n\n"
    (renderSection "### SPECIALIST KNOWLEDGE (KITS):\n" (bucketTexts Scope.KIT docs)
      ++ renderSection "### FIRM KNOWLEDGE:\n" (bucketTexts Scope.FIRM docs)
      ++ renderSection "### CLIENT CONTEXT:\n" (bucketTexts Scope.CLIENT docs))

/-! ## Chunker claims -/

/-- C3: the spec claims that when the window contains a space at last
offset `L`, the splitter emits `text[start : start+L]` and advances the
cursor to `start + L - overlap`.  On `text = "ab cdefgh"`,
`chunk_size = 5`, `overlap = 1`, at cursor `0` the window is `"ab cd"`
with last space at `L = 2`: the chunk `"ab"` is emitted as claimed, but
the next cursor is `3` (the two sequential assignments compose to
`start + 2*L + 1 - 2*overlap`), not `0 + L - overlap = 1`. -/
theorem c3_advance_counterexample :
    splitStep 5 1 ("ab cdefgh".toList) 0 = ("ab".toList, some 3)
    ∧ (3 : Nat) ≠ 0 + 2 - 1 := by
  decide

/-- C4: on `text = "ab cdef"`, `chunk_size = 5`, `overlap = 0` (parameters
within the claimed contract `chunk_size ≥ 1`, `0 ≤ overlap < chunk_size`),
`split_text` returns the chunks `["ab", "ef"]`: the characters
`" cd"` at positions 2..4 — in particular the `'c'` present in the input —
appear in no chunk, refuting chunk coverage. -/
theorem c4_coverage_counterexample :
    split_text 5 0 ("ab cdef".toList) 10 = some ["ab".toList, "ef".toList]
    ∧ 'c' ∈ ("ab cdef".toList)
    ∧ ∀ ch ∈ [("ab".toList), ("ef".toList)], 'c' ∉ ch := by
  decide

/-- On `text = " bbbb"`, `chunk_size = 3`, `overlap = 1`, the loop body at
cursor `0` emits the empty chunk and returns to cursor `0`: the window
`" bb"` has its last space at offset `0`, and `0 + 2*0 + 1 - 2*1` clamps
to `0`. -/
theorem splitLoop_stuck_step :
    splitStep 3 1 (" bbbb".toList) 0 = (([] : List Char), some 0) := by
  decide

/-- The loop from cursor `0` on `" bbbb"` with `chunk_size = 3`,
`overlap = 1` exhausts any amount of fuel. -/
theorem splitLoop_stuck (fuel : Nat) :
    splitLoop 3 1 (" bbbb".toList) fuel 0 = none := by
  induction fuel with
  | zero => rfl
  | succ f ih =>
    have h : splitLoop 3 1 (" bbbb".toList) (f + 1) 0
        = (splitLoop 3 1 (" bbbb".toList) f 0).map (fun r => ([] : List Char) :: r) := rfl
    rw [h, ih]
    rfl

/-- C5 counterexample: with `chunk_size = 3` and `overlap = 1` — inside
the claimed contract `0 ≤ overlap < chunk_size` — `split_text` on the
input `" bbbb"` never terminates: no amount of fuel completes the loop. -/
theorem c5_termination_counterexample :
    ¬ ∃ (fuel : Nat) (chunks : List (List Char)),
        split_text 3 1 (" bbbb".toList) fuel = some chunks := by
  rintro ⟨fuel, chunks, h⟩
  have he : split_text 3 1 (" bbbb".toList) fuel
      = splitLoop 3 1 (" bbbb".toList) fuel 0 := rfl
  rw [he, splitLoop_stuck fuel] at h
  exact Option.noConfusion h

/-- With `overlap = 0` every loop step strictly advances the cursor. -/
theorem splitStep_progress (cs : Nat) (text : List Char) (start s2 : Nat)
    (chunk : List Char) (hcs : 0 < cs)
    (h : splitStep cs 0 text start = (chunk, some s2)) : start + 1 ≤ s2 := by
  unfold splitStep at h
  split at h
  · exact absurd (congrArg Prod.snd h) (by simp)
  · rcases hr : rstrfind ((text.drop start).take cs) ' ' with _ | L
    · simp only [hr] at h
      have h2 := congrArg Prod.snd h
      simp only [Option.some.injEq] at h2
      omega
    · simp only [hr] at h
      have h2 := congrArg Prod.snd h
      simp only [Option.some.injEq] at h2
      omega

/-- With `overlap = 0`, fuel covering the remaining characters suffices
for the loop to finish. -/
theorem splitLoop_zero_overlap_isSome (cs : Nat) (text : List Char) (hcs : 0 < cs) :
    ∀ fuel start, text.length ≤ start + fuel →
      (splitLoop cs 0 text fuel start).isSome = true := by
  intro fuel
  induction fuel with
  | zero =>
    intro start h
    have hge : ¬ start < text.length := by omega
    unfold splitLoop
    simp [hge]
  | succ f ih =>
    intro start h
    by_cases hlt : start < text.length
    · unfold splitLoop
      simp only [hlt, if_true]
      rcases hstep : splitStep cs 0 text start with ⟨chunk, _ | s2⟩
      · simp
      · have hprog := splitStep_progress cs text start s2 chunk hcs hstep
        have := ih s2 (by omega)
        simp [Option.isSome_map, this]
    · unfold splitLoop
      simp [hlt]

/-- C5 (amended): `split_text` terminates for every text when
`overlap = 0` and `chunk_size ≥ 1` — fuel `text.length + 1` always
completes the loop; for `0 < overlap < chunk_size` termination is not
guaranteed (`c5_termination_counterexample`). -/
theorem c5_zero_overlap_terminates (cs : Nat) (text : List Char) (hcs : 0 < cs) :
    (split_text cs 0 text (text.length + 1)).isSome = true := by
  by_cases he : text.isEmpty
  · simp [split_text, he]
  · have h := splitLoop_zero_overlap_isSome cs text hcs (text.length + 1) 0 (by omega)
    simpa [split_text, he] using h

/-- Witness for the amended C5 theorem at `chunk_size = 1`,
`text = "a"`. -/
theorem c5_zero_overlap_terminates_witness :
    0 < 1 ∧ (split_text 1 0 ("a".toList) (("a".toList).length + 1)).isSome = true :=
  ⟨by decide, c5_zero_overlap_terminates 1 ("a".toList) (by decide)⟩

/-! ## Retrieval filter claims -/

/-- The boolean `where_clause` built by `Retriever.retrieve` holds of a
document exactly when the spec's visibility predicate does. -/
theorem whereClause_iff (f c : Nat) (kits : List Nat) (d : Document) :
    whereClause f c kits d = true ↔ specEligible f c kits d := by
  cases kits with
  | nil => simp [whereClause, retrieveConditions, specEligible]
  | cons k ks => simp [whereClause, retrieveConditions, specEligible]

/-- C2: a stored chunk row is eligible for
`retrieve(query, firm_id, client_id, kit_ids)` — i.e. survives the
visibility `where_clause` — if and only if its owning document has scope
CLIENT with the supplied client id, or scope FIRM with the supplied firm
id, or scope KIT with a kit id among the supplied ones; with empty
`kit_ids` no KIT-scoped document is eligible (the third disjunct is
vacuous over the empty list). -/
theorem c2_scope_completeness (s : Store) (f c : Nat) (kits : List Nat)
    (r : DocEmbedding × Document) :
    r ∈ eligibleRows s f c kits ↔ r ∈ joinRows s ∧ specEligible f c kits r.2 := by
  simp [eligibleRows, List.mem_filter, whereClause_iff]

/-- A KIT-scoped document contributed by firm 2, attached to kit 7. -/
def c1kitDoc : Document :=
  ⟨1, Scope.KIT, some 2, none, some 7, DocumentStatus.READY⟩

/-- The single chunk row of `c1kitDoc`. -/
def c1row : DocEmbedding := ⟨1, 1, "x".toList, 0, [(0 : ℚ)]⟩

/-- A store holding only firm 2's kit document. -/
def c1store : Store := ⟨[c1kitDoc], [c1row]⟩

/-- C1 counterexample: retrieving as firm 1 / client 1 with kit 7 attached
returns the hit whose owning document has `firm_id = 2` — a document of a
different firm.  KIT-scoped documents are shared across firms by the
`kit_id ∈ kit_ids` clause, so the claim's "no hit whose Document belongs
to a different tenant is ever returned" fails as stated. -/
theorem c1_counterexample :
    retrieve (fun _ => [(0 : ℚ)]) c1store ("any query".toList) 1 1 [7] 5
      = [(c1row, c1kitDoc)]
    ∧ c1kitDoc.firm_id = some 2
    ∧ (some 2 : Option Nat) ≠ some 1 := by
  decide

/-- C1 (amended): every hit returned by `retrieve` satisfies the
visibility `where_clause`; consequently a FIRM-scoped hit always carries
the querying firm's id and a CLIENT-scoped hit the supplied client's id —
no FIRM- or CLIENT-scoped document of another tenant is ever returned,
regardless of query content — while a KIT-scoped hit is only constrained
to one of the attached kits (kit content is shared across firms). -/
theorem c1_isolation (embed : List Char → List ℚ) (s : Store) (query : List Char)
    (firm_id client_id : Nat) (kit_ids : List Nat) (limit : Nat)
    (r : DocEmbedding × Document)
    (hr : r ∈ retrieve embed s query firm_id client_id kit_ids limit) :
    whereClause firm_id client_id kit_ids r.2 = true
    ∧ (r.2.scope = Scope.FIRM → r.2.firm_id = some firm_id)
    ∧ (r.2.scope = Scope.CLIENT → r.2.client_id = some client_id)
    ∧ (r.2.scope = Scope.KIT → ∃ k ∈ kit_ids, r.2.kit_id = some k) := by
  have hmem : r ∈ eligibleRows s firm_id client_id kit_ids := by
    have h1 := List.mem_of_mem_take hr
    exact (List.mem_insertionSort (distLE (embed query))).mp h1
  have hw : whereClause firm_id client_id kit_ids r.2 = true :=
    (List.mem_filter.mp hmem).2
  have hs := (whereClause_iff firm_id client_id kit_ids r.2).mp hw
  refine ⟨hw, ?_, ?_, ?_⟩ <;> intro hsc <;>
    rcases hs with ⟨h1, h2⟩ | ⟨h1, h2⟩ | ⟨h1, h2⟩ <;> simp_all

/-- A FIRM-scoped document of firm 1 with one chunk, for the C1 witness. -/
def c1wDoc : Document :=
  ⟨1, Scope.FIRM, some 1, none, none, DocumentStatus.READY⟩

/-- The single chunk row of `c1wDoc`. -/
def c1wRow : DocEmbedding := ⟨1, 1, "t".toList, 0, [(0 : ℚ)]⟩

/-- Store for the C1 witness. -/
def c1wStore : Store := ⟨[c1wDoc], [c1wRow]⟩

/-- Witness for the amended C1 theorem on a concrete store and hit. -/
theorem c1_isolation_witness :
    (c1wRow, c1wDoc) ∈ retrieve (fun _ => [(0 : ℚ)]) c1wStore ("q".toList) 1 1 [] 5
    ∧ (whereClause 1 1 [] c1wDoc = true
       ∧ (c1wDoc.scope = Scope.FIRM → c1wDoc.firm_id = some 1)
       ∧ (c1wDoc.scope = Scope.CLIENT → c1wDoc.client_id = some 1)
       ∧ (c1wDoc.scope = Scope.KIT → ∃ k ∈ ([] : List Nat), c1wDoc.kit_id = some k)) :=
  ⟨by decide,
   c1_isolation (fun _ => [(0 : ℚ)]) c1wStore ("q".toList) 1 1 [] 5
     (c1wRow, c1wDoc) (by decide)⟩

/-! ## Ranking claims -/

/-- Inserting into a list keeps, among the elements at any fixed key
value, their relative order: the key-`qd` elements of the result are `x`
in front (when `key x = qd`) of the key-`qd` elements of the input. -/
theorem filter_key_orderedInsert {α : Type} (key : α → ℚ) (qd : ℚ) (x : α)
    (l : List α) :
    (List.orderedInsert (fun a b => key a ≤ key b) x l).filter
        (fun r => decide (key r = qd))
      = if key x = qd then x :: l.filter (fun r => decide (key r = qd))
        else l.filter (fun r => decide (key r = qd)) := by
  induction l with
  | nil =>
    by_cases hq : key x = qd <;> simp [List.orderedInsert, hq]
  | cons y ys ih =>
    simp only [List.orderedInsert]
    by_cases hxy : key x ≤ key y
    · rw [if_pos hxy]
      by_cases hq : key x = qd <;> by_cases hy : key y = qd <;>
        simp [List.filter_cons, hq, hy]
    · rw [if_neg hxy]
      have hyx : key y < key x := lt_of_not_le hxy
      by_cases hq : key x = qd
      · have hyq : ¬ key y = qd := by
          intro h
          have heq : key y = key x := h.trans hq.symm
          rw [heq] at hyx
          exact lt_irrefl _ hyx
        simp [List.filter_cons, hq, hyq, ih]
      · by_cases hy : key y = qd <;> simp [List.filter_cons, hq, hy, ih]

/-- Stability of the insertion sort: filtering the sorted list down to any
fixed key value returns exactly the input's elements at that key value, in
input order. -/
theorem filter_key_insertionSort {α : Type} (key : α → ℚ) (qd : ℚ) (l : List α) :
    (List.insertionSort (fun a b => key a ≤ key b) l).filter
        (fun r => decide (key r = qd))
      = l.filter (fun r => decide (key r = qd)) := by
  induction l with
  | nil => rfl
  | cons x xs ih =>
    simp only [List.insertionSort]
    rw [filter_key_orderedInsert key qd x]
    by_cases hq : key x = qd <;> simp [hq, ih, List.filter_cons]

/-- The modelled `ORDER BY` output is pairwise nondecreasing in distance
to the query vector. -/
theorem pairwise_orderByDistance (qv : List ℚ) (rows : List (DocEmbedding × Document)) :
    List.Pairwise (distLE qv) (orderByDistance qv rows) := by
  haveI : IsTotal (DocEmbedding × Document) (distLE qv) := ⟨fun a b => le_total _ _⟩
  haveI : IsTrans (DocEmbedding × Document) (distLE qv) :=
    ⟨fun a b c hab hbc => le_trans hab hbc⟩
  exact List.sorted_insertionSort (distLE qv) rows

/-- Stability of the modelled `ORDER BY` on the retrieval rows. -/
theorem filter_dist_orderByDistance (qv : List ℚ) (qd : ℚ)
    (rows : List (DocEmbedding × Document)) :
    (orderByDistance qv rows).filter (fun r => decide (dist2 qv r.1.embedding = qd))
      = rows.filter (fun r => decide (dist2 qv r.1.embedding = qd)) :=
  filter_key_insertionSort (fun r => dist2 qv r.1.embedding) qd rows

/-- C6: the hit list of `Retriever.retrieve` is sorted nondecreasing in
(squared, hence also plain) L2 distance between chunk vector and embedded
query vector; it has `min limit #eligible` hits; every hit's distance is
at most the distance of every eligible chunk left out (so it contains the
`limit` closest and the top hit is closest of all); and at any fixed
distance the hits keep chunk insertion order (stability of the modelled
`ORDER BY`), making the result deterministic. -/
theorem c6_ranking (embed : List Char → List ℚ) (s : Store) (q : List Char)
    (f c : Nat) (kits : List Nat) (lim : Nat) :
    List.Pairwise (distLE (embed q)) (retrieve embed s q f c kits lim)
    ∧ (retrieve embed s q f c kits lim).length = min lim (eligibleRows s f c kits).length
    ∧ (∀ x ∈ retrieve embed s q f c kits lim, ∀ y ∈ eligibleRows s f c kits,
        y ∉ retrieve embed s q f c kits lim →
          dist2 (embed q) x.1.embedding ≤ dist2 (embed q) y.1.embedding)
    ∧ ∀ qd : ℚ, ∃ rest,
        (eligibleRows s f c kits).filter
            (fun r => decide (dist2 (embed q) r.1.embedding = qd))
          = (retrieve embed s q f c kits lim).filter
              (fun r => decide (dist2 (embed q) r.1.embedding = qd)) ++ rest := by
  refine ⟨?_, ?_, ?_, ?_⟩
  · exact (pairwise_orderByDistance (embed q) (eligibleRows s f c kits)).sublist
      (List.take_sublist lim _)
  · show ((orderByDistance (embed q) (eligibleRows s f c kits)).take lim).length = _
    rw [List.length_take]
    unfold orderByDistance
    rw [List.length_insertionSort]
  · intro x hx y hy hyn
    have hy2 : y ∈ orderByDistance (embed q) (eligibleRows s f c kits) :=
      (List.mem_insertionSort (distLE (embed q))).mpr hy
    have hsplit := List.take_append_drop lim
      (orderByDistance (embed q) (eligibleRows s f c kits))
    have hy3 : y ∈ (orderByDistance (embed q) (eligibleRows s f c kits)).drop lim := by
      rcases List.mem_append.mp (hsplit.symm ▸ hy2) with h | h
      · exact absurd h hyn
      · exact h
    have hpw := List.pairwise_append.mp
      (by rw [hsplit]; exact pairwise_orderByDistance (embed q) (eligibleRows s f c kits))
    exact hpw.2.2 x hx y hy3
  · intro qd
    refine ⟨((orderByDistance (embed q) (eligibleRows s f c kits)).drop lim).filter
        (fun r => decide (dist2 (embed q) r.1.embedding = qd)), ?_⟩
    have hsplit := List.take_append_drop lim
      (orderByDistance (embed q) (eligibleRows s f c kits))
    have h1 : (eligibleRows s f c kits).filter
        (fun r => decide (dist2 (embed q) r.1.embedding = qd))
        = ((orderByDistance (embed q) (eligibleRows s f c kits)).take lim
            ++ (orderByDistance (embed q) (eligibleRows s f c kits)).drop lim).filter
          (fun r => decide (dist2 (embed q) r.1.embedding = qd)) := by
      rw [hsplit, filter_dist_orderByDistance]
    rw [h1, List.filter_append]
    rfl

/-- A CLIENT-scoped document of firm 1 / client 1 for the C6 witness. -/
def c6wDoc : Document :=
  ⟨1, Scope.CLIENT, some 1, some 1, none, DocumentStatus.READY⟩

/-- First chunk row of `c6wDoc`. -/
def c6wRowA : DocEmbedding := ⟨1, 1, "a".toList, 0, [(0 : ℚ)]⟩

/-- Second chunk row of `c6wDoc`, at the same distance to any query. -/
def c6wRowB : DocEmbedding := ⟨2, 1, "b".toList, 1, [(0 : ℚ)]⟩

/-- Store for the C6 witness: one document, two equidistant chunks. -/
def c6wStore : Store := ⟨[c6wDoc], [c6wRowA, c6wRowB]⟩

/-- Witness for the C6 theorem on a concrete store with an equal-distance
tie. -/
theorem c6_ranking_witness :
    List.Pairwise (distLE ((fun _ => [(0 : ℚ)]) ("q".toList)))
        (retrieve (fun _ => [(0 : ℚ)]) c6wStore ("q".toList) 1 1 [] 5)
    ∧ (retrieve (fun _ => [(0 : ℚ)]) c6wStore ("q".toList) 1 1 [] 5).length
        = min 5 (eligibleRows c6wStore 1 1 []).length
    ∧ (∀ x ∈ retrieve (fun _ => [(0 : ℚ)]) c6wStore ("q".toList) 1 1 [] 5,
        ∀ y ∈ eligibleRows c6wStore 1 1 [],
          y ∉ retrieve (fun _ => [(0 : ℚ)]) c6wStore ("q".toList) 1 1 [] 5 →
            dist2 ((fun _ => [(0 : ℚ)]) ("q".toList)) x.1.embedding
              ≤ dist2 ((fun _ => [(0 : ℚ)]) ("q".toList)) y.1.embedding)
    ∧ ∀ qd : ℚ, ∃ rest,
        (eligibleRows c6wStore 1 1 []).filter
            (fun r => decide (dist2 ((fun _ => [(0 : ℚ)]) ("q".toList)) r.1.embedding = qd))
          = (retrieve (fun _ => [(0 : ℚ)]) c6wStore ("q".toList) 1 1 [] 5).filter
              (fun r => decide (dist2 ((fun _ => [(0 : ℚ)]) ("q".toList)) r.1.embedding = qd))
            ++ rest :=
  c6_ranking (fun _ => [(0 : ℚ)]) c6wStore ("q".toList) 1 1 [] 5

/-! ## Ingestion claims -/

/-- C7: for every document whose source file resolves but whose text
extraction returns the empty string, `ingest_document` commits PROCESSING
and then FAILED as the final, persisted status, persists zero
`DocEmbedding` rows, and returns (the body is wrapped in `try/except`, so
nothing is raised to the caller — the model is a total function). -/
theorem c7_empty_extraction_fails (d : Document) (fuel : Nat) :
    ingest_document (some d) true (some []) fuel
      = ⟨[DocumentStatus.PROCESSING, DocumentStatus.FAILED], []⟩ := rfl

/-- A single `ingest_document` run commits one of four status-write
sequences, and READY or FAILED can only be the final write. -/
theorem ingest_statusWrites_cases (doc : Option Document) (fileOk : Bool)
    (parsed : Option (List Char)) (fuel : Nat) :
    (ingest_document doc fileOk parsed fuel).statusWrites = []
    ∨ (ingest_document doc fileOk parsed fuel).statusWrites = [DocumentStatus.PROCESSING]
    ∨ (ingest_document doc fileOk parsed fuel).statusWrites
        = [DocumentStatus.PROCESSING, DocumentStatus.FAILED]
    ∨ (ingest_document doc fileOk parsed fuel).statusWrites
        = [DocumentStatus.PROCESSING, DocumentStatus.READY] := by
  unfold ingest_document
  rcases doc with _ | d
  · simp
  · rcases parsed with _ | text
    · cases fileOk <;> simp
    · cases fileOk
      · simp
      · by_cases ht : text.isEmpty
        · simp [ht]
        · rcases hs : split_text 1000 200 text fuel with _ | chunks <;> simp [ht, hs]

/-- C8: over the status history of a document — created UPLOADED by
`upload_document`, which registers `ingest_document` at most once for its
id — a READY or FAILED status is always the last entry: once a terminal
status is committed, no later status is ever written, so re-ingesting
content requires a new upload creating a new document. -/
theorem c8_ingestion_terminality (doc : Option Document) (fileOk : Bool)
    (parsed : Option (List Char)) (fuel : Nat) (i : Nat)
    (h : (document_status_trace doc fileOk parsed fuel)[i]? = some DocumentStatus.READY
       ∨ (document_status_trace doc fileOk parsed fuel)[i]? = some DocumentStatus.FAILED) :
    i + 1 = (document_status_trace doc fileOk parsed fuel).length := by
  unfold document_status_trace at h ⊢
  rcases ingest_statusWrites_cases doc fileOk parsed fuel with h4 | h4 | h4 | h4 <;>
    rw [h4] at h ⊢ <;>
    rcases i with _ | _ | _ | i <;>
    simp_all

/-- A freshly uploaded FIRM-scoped document, for the C8 witness. -/
def c8wDoc : Document :=
  ⟨1, Scope.FIRM, some 1, none, none, DocumentStatus.UPLOADED⟩

/-- Witness for the C8 theorem: on the empty-extraction run the trace is
`[UPLOADED, PROCESSING, FAILED]` and the FAILED at index 2 is final. -/
theorem c8_ingestion_terminality_witness :
    (document_status_trace (some c8wDoc) true (some []) 0)[2]?
        = some DocumentStatus.FAILED
    ∧ 2 + 1 = (document_status_trace (some c8wDoc) true (some []) 0).length :=
  ⟨by decide,
   c8_ingestion_terminality (some c8wDoc) true (some []) 0 2 (Or.inr (by decide))⟩

/-! ## Prompt assembly claim -/

/-- The bucket-filling fold of `format_context_for_prompt` computes, on
top of any accumulator, the per-scope texts in hit order. -/
theorem foldl_groupStep (docs : List (Scope × String)) :
    ∀ a b c : List String,
      docs.foldl groupStep (a, b, c)
        = (a ++ bucketTexts Scope.KIT docs, b ++ bucketTexts Scope.FIRM docs,
           c ++ bucketTexts Scope.CLIENT docs) := by
  induction docs with
  | nil => intro a b c; simp [bucketTexts]
  | cons d ds ih =>
    intro a b c
    rcases d with ⟨sc, t⟩
    cases sc <;>
      simp [groupStep, bucketTexts, List.filter_cons, ih, List.append_assoc]

/-- C9: `format_context_for_prompt` partitions the hits by their
document's scope and renders exactly the nonempty buckets, under their
labeled headers, in the fixed priority order KIT, FIRM, CLIENT, joined by
blank lines — an empty bucket contributes no header and no text. -/
theorem c9_prompt_grouping (docs : List (Scope × String)) :
    format_context_for_prompt docs = specFormatContext docs := by
  simp only [format_context_for_prompt, specFormatContext, renderSection,
    foldl_groupStep docs [] [] [], List.nil_append]

/-! ## Embedder claim -/

/-- C10: the stub embedder depends only on the length of its input — equal
lengths give equal vectors, `embed_batch` maps `embed_text`, batches of
equal length profiles embed identically, and the whole retrieval result is
unchanged when the query is replaced by any other string of the same
length. -/
theorem c10_embedding_length_only (e : StubEmbedder) (s t : List Char)
    (hlen : s.length = t.length) :
    e.embed_text s = e.embed_text t
    ∧ (∀ texts, e.embed_batch texts = texts.map e.embed_text)
    ∧ (∀ texts1 texts2 : List (List Char),
        texts1.map List.length = texts2.map List.length →
          e.embed_batch texts1 = e.embed_batch texts2)
    ∧ ∀ (store : Store) (f c : Nat) (kits : List Nat) (lim : Nat),
        retrieve e.embed_text store s f c kits lim
          = retrieve e.embed_text store t f c kits lim := by
  have h1 : e.embed_text s = e.embed_text t := by
    unfold StubEmbedder.embed_text
    rw [hlen]
  refine ⟨h1, fun _ => rfl, ?_, ?_⟩
  · intro l1 l2 hl
    unfold StubEmbedder.embed_batch
    induction l1 generalizing l2 with
    | nil =>
      cases l2 with
      | nil => rfl
      | cons y ys => simp at hl
    | cons x xs ih =>
      cases l2 with
      | nil => simp at hl
      | cons y ys =>
        simp only [List.map_cons, List.cons.injEq] at hl
        obtain ⟨hx, hxs⟩ := hl
        simp only [List.map_cons, List.cons.injEq]
        refine ⟨?_, ih ys hxs⟩
        unfold StubEmbedder.embed_text
        rw [hx]
  · intro store f c kits lim
    unfold retrieve
    rw [h1]

/-- A concrete stub embedder instance for the C10 witness, whose generator
returns the seed and the dimension. -/
def c10wEmbedder : StubEmbedder := ⟨3, fun seed dim => [(seed : ℚ), (dim : ℚ)]⟩

/-- Witness for the C10 theorem on the equal-length strings
`"ab"` and `"cd"`. -/
theorem c10_embedding_length_only_witness :
    ("ab".toList).length = ("cd".toList).length
    ∧ (c10wEmbedder.embed_text ("ab".toList) = c10wEmbedder.embed_text ("cd".toList)
       ∧ (∀ texts, c10wEmbedder.embed_batch texts = texts.map c10wEmbedder.embed_text)
       ∧ (∀ texts1 texts2 : List (List Char),
            texts1.map List.length = texts2.map List.length →
              c10wEmbedder.embed_batch texts1 = c10wEmbedder.embed_batch texts2)
       ∧ ∀ (store : Store) (f c : Nat) (kits : List Nat) (lim : Nat),
            retrieve c10wEmbedder.embed_text store ("ab".toList) f c kits lim
              = retrieve c10wEmbedder.embed_text store ("cd".toList) f c kits lim) :=
  ⟨by decide,
   c10_embedding_length_only c10wEmbedder ("ab".toList) ("cd".toList) (by decide)⟩

end CACopilot
